import Mathlib

/-!
Shallow embedding of the job lifecycle engine of src/app.py: the in-memory
admission queue (the collections.deque named job_queue), the job store (the
dict named job_results), the submission endpoint generate_image_endpoint,
the background image_generation_worker, the periodic job_cleanup_worker,
the result endpoint get_result, and the seed handling of parse_request_args.

Times are naturals (seconds since an arbitrary origin) and job identifiers
are naturals (uuid4 strings in the source).  Each with-queue_lock critical
section of the source is one atomic step of the transition relation Step
below; the code that runs outside the lock (request parsing, the compute
call, saving the artifact) happens between steps.
-/

namespace KontextApp

/-- The status field of a job record: the strings "queued", "processing",
"completed" and "failed" of the source. -/
inductive Status
  | queued
  | processing
  | completed
  | failed
  deriving DecidableEq, Repr

/-- The pipe_kwargs dictionary built by parse_request_args.  The PIL image and
the torch generator are opaque payloads, modelled as optional tokens so that
deleting the dictionary keys (del params of image, del params of generator in
the worker's finally block) is setting the field to none; seed_value is
likewise optional because the worker pops it before invoking the pipeline.
The two float-valued scale fields of the source (guidance_scale,
true_cfg_scale) are opaque to the lifecycle engine and are not modelled. -/
structure Params where
  image : Option Nat
  generator : Option Nat
  seed_value : Option Nat
  prompt : String
  width : Nat
  height : Nat
  num_inference_steps : Nat
  max_sequence_length : Nat
  num_images_per_prompt : Nat
  deriving DecidableEq, Repr

/-- One entry of the job_results dict.  The status and params keys are always
present (params is created at submission and only its image, generator and
seed_value keys are ever deleted); start_time, completion_time, result_path
and error are present only after the corresponding transition, hence Option. -/
structure JobRecord where
  status : Status
  params : Params
  submit_time : Nat
  start_time : Option Nat
  completion_time : Option Nat
  result_path : Option String
  error : Option String
  deriving DecidableEq, Repr

/-- Dictionary lookup job_results.get(id) on the association-list model. -/
def findRecord : List (Nat × JobRecord) → Nat → Option JobRecord
  | [], _ => none
  | (k, r) :: rest, id => if k = id then some r else findRecord rest id

/-- In-place mutation job_results[id].update(...) / field assignment: apply f
to the record stored under id, leave every other entry unchanged. -/
def updateRecord (st : List (Nat × JobRecord)) (id : Nat) (f : JobRecord → JobRecord) :
    List (Nat × JobRecord) :=
  match st with
  | [] => []
  | (k, r) :: rest => (k, if k = id then f r else r) :: updateRecord rest id f

/-- Dictionary deletion del job_results[id]. -/
def eraseRecord (st : List (Nat × JobRecord)) (id : Nat) : List (Nat × JobRecord) :=
  st.filter fun kr => kr.1 ≠ id

/-- The two shared mutable structures guarded by queue_lock: the deque
job_queue (head of the list is the left end of the deque, popleft takes the
head, append adds at the back) and the dict job_results. -/
structure ServerState where
  job_queue : List Nat
  job_results : List (Nat × JobRecord)
  deriving DecidableEq, Repr

/-- The on-disk results folder.  files is the set of existing paths;
failing is the set of paths for which os.remove raises OSError (modelling
best-effort deletion). -/
structure FileSystem where
  files : List String
  failing : List String
  deriving DecidableEq, Repr

/-- os.path.exists. -/
def fsExists (fs : FileSystem) (p : String) : Bool := decide (p ∈ fs.files)

/-- os.remove inside the sweeper's try/except OSError: on failure the file
system is unchanged (the exception is logged and swallowed), on success the
path is gone. -/
def osRemove (fs : FileSystem) (p : String) : FileSystem :=
  if p ∈ fs.failing then fs
  else { fs with files := fs.files.filter (· ≠ p) }

/-- The record created by generate_image_endpoint:
job_results[job_id] = status queued, params pipe_kwargs, submit_time now. -/
def newRecord (p : Params) (now : Nat) : JobRecord :=
  { status := .queued, params := p, submit_time := now,
    start_time := none, completion_time := none, result_path := none, error := none }

/-- The second critical section of generate_image_endpoint (source lines
381 to 388): create the record and append the id to the queue, under one
lock acquisition. -/
def submitEnqueue (s : ServerState) (id : Nat) (p : Params) (now : Nat) : ServerState :=
  { job_queue := s.job_queue ++ [id],
    job_results := (id, newRecord p now) :: s.job_results }

/-- Outcome of a submission as seen by the client: HTTP 503 queue-full
rejection or HTTP 202 acceptance with a job id. -/
inductive SubmitOutcome
  | queueFull
  | accepted (id : Nat)
  deriving DecidableEq, Repr

/-- The whole submission endpoint executed without interleaving: the
capacity check (source line 364, len(job_queue) >= MAX_QUEUE_SIZE rejects)
immediately followed by the enqueue critical section.  In the source the two
critical sections are separated by request parsing with the lock released;
the transition relation Step below models that separation, and atomicSubmit
is the sequential composition of the same two sections. -/
def atomicSubmit (maxSize : Nat) (s : ServerState) (id : Nat) (p : Params) (now : Nat) :
    ServerState × SubmitOutcome :=
  if maxSize ≤ s.job_queue.length then (s, .queueFull)
  else (submitEnqueue s id p now, .accepted id)

/-- The status/start_time assignment performed by the worker inside the
dequeue critical section (source lines 280 to 283). -/
def markProcessing (now : Nat) (r : JobRecord) : JobRecord :=
  { r with status := .processing, start_time := some now }

/-- The dequeue critical section of image_generation_worker (source lines
278 to 283): if the queue is non-empty, popleft the head, set its record to
processing and stamp start_time, all under one lock acquisition. -/
def dequeueStep (s : ServerState) (now : Nat) : ServerState × Option Nat :=
  match s.job_queue with
  | [] => (s, none)
  | id :: rest =>
      ({ job_queue := rest,
         job_results := updateRecord s.job_results id (markProcessing now) }, some id)

/-- Result of the try block of the worker (pipeline call plus artifact
save), classified exactly as the source's except clauses classify it:
success, torch.cuda.OutOfMemoryError, RuntimeError, any other Exception. -/
inductive ComputeOutcome
  | success
  | oom
  | runtimeFault (details : String)
  | otherFault (details : String)
  deriving DecidableEq, Repr

/-- Error message of the OutOfMemoryError handler (source line 315). -/
def oomMessage : String :=
  "Processing failed due to insufficient GPU memory. Try a smaller image size or reduce batch size."

/-- Error message stored by the RuntimeError handler (source line 331). -/
def runtimeMessage : String :=
  "An unexpected error occurred. This may be a resource issue."

/-- Error message stored by the generic Exception handler (source line 343). -/
def otherMessage : String :=
  "An unexpected server error occurred."

/-- os.path.join(Config.RESULTS_FOLDER, job_id + ".png") of source line 300:
the artifact path is derived deterministically from the job id. -/
def resultPathFor (folder : String) (id : Nat) : String :=
  folder ++ "/" ++ toString id ++ ".png"

/-- pipe_kwargs.pop("seed_value") at source line 292: pipe_kwargs aliases the
record's params dict, so the pop removes the key from the record. -/
def popSeedValue (r : JobRecord) : JobRecord :=
  { r with params := { r.params with seed_value := none } }

/-- The post-compute critical section of the worker, one per outcome:
on success, job_results[id].update(status completed, result_path,
completion_time now) (source lines 304 to 311); on each failure kind,
job_results[id].update(status failed, error message) -- note the source
sets no completion_time in any of the three failure handlers (source lines
314 to 345). -/
def applyOutcome (now : Nat) (path : String) (o : ComputeOutcome) (r : JobRecord) : JobRecord :=
  match o with
  | .success =>
      { r with status := .completed, result_path := some path, completion_time := some now }
  | .oom =>
      { r with status := .failed, error := some oomMessage }
  | .runtimeFault _ =>
      { r with status := .failed, error := some runtimeMessage }
  | .otherFault _ =>
      { r with status := .failed, error := some otherMessage }

/-- processed_image.save(result_path, "PNG") at source line 301: only a
successful compute writes the artifact file. -/
def saveArtifact (path : String) (o : ComputeOutcome) (fs : FileSystem) : FileSystem :=
  match o with
  | .success => { fs with files := path :: fs.files }
  | _ => fs

/-- The worker's finally block (source lines 346 to 350): delete the image
and generator keys from the record's params dict. -/
def releaseParamsRec (r : JobRecord) : JobRecord :=
  { r with params := { r.params with image := none, generator := none } }

/-- The sweeper's expiry test (source lines 246 to 250): a record with no
completion_time key is skipped; one with completion_time ct expires when
now - ct > JOB_RESULT_TTL. -/
def isExpired (ttl now : Nat) (r : JobRecord) : Bool :=
  match r.completion_time with
  | some ct => decide (ttl < now - ct)
  | none => false

/-- The expired_jobs list gathered by the first loop of job_cleanup_worker
over a snapshot of all keys (source lines 241 to 250). -/
def expiredIds (ttl now : Nat) (s : ServerState) : List Nat :=
  (s.job_results.map Prod.fst).filter fun id =>
    match findRecord s.job_results id with
    | some r => isExpired ttl now r
    | none => false

/-- One iteration of the sweeper's deletion loop (source lines 254 to 266):
best-effort os.remove of the artifact when a result_path key is present,
then del job_results[job_id].  A record found missing is left alone (the
source guards with job_results.get). -/
def sweepOne (s : ServerState) (fs : FileSystem) (id : Nat) : ServerState × FileSystem :=
  match findRecord s.job_results id with
  | none => (s, fs)
  | some r =>
      ({ s with job_results := eraseRecord s.job_results id },
       match r.result_path with
       | some p => osRemove fs p
       | none => fs)

/-- The sweeper's deletion loop folded over the expired ids. -/
def sweepFold : List Nat → ServerState × FileSystem → ServerState × FileSystem
  | [], acc => acc
  | id :: ids, acc => sweepFold ids (sweepOne acc.1 acc.2 id)

/-- One whole sweep of job_cleanup_worker (the body of the while loop after
the sleep, source lines 237 to 267), executed under one lock acquisition. -/
def cleanupSweep (ttl now : Nat) (s : ServerState) (fs : FileSystem) :
    ServerState × FileSystem :=
  sweepFold (expiredIds ttl now s) (s, fs)

/-- The responses of the get_result endpoint (source lines 431 to 452):
404 unknown id, 200 send_file, 500 missing artifact for a completed job,
500 with the recorded error for a failed job, 202 not-yet-complete. -/
inductive ResultResponse
  | notFound
  | fileResponse (path : String)
  | missingResult
  | failedError (msg : String)
  | notReady (st : Status)
  deriving DecidableEq, Repr

/-- The get_result endpoint (source lines 431 to 452), translated branch by
branch. -/
def get_result (s : ServerState) (fs : FileSystem) (job_id : Nat) : ResultResponse :=
  match findRecord s.job_results job_id with
  | none => .notFound
  | some job =>
      if job.status = .completed then
        match job.result_path with
        | some p => if fsExists fs p then .fileResponse p else .missingResult
        | none => .missingResult
      else if job.status = .failed then
        .failedError (job.error.getD "An unknown error occurred.")
      else .notReady job.status

/-- Value of a decimal digit character, as int() reads it. -/
def digitVal (c : Char) : Nat := c.toNat - 48

/-- int(s) for a string of decimal digits. -/
def strToNat (s : String) : Nat :=
  s.data.foldl (fun a c => a * 10 + digitVal c) 0

/-- The guard seed_str and seed_str.isdigit() of source line 219: the string
is non-empty and every character is a decimal digit. -/
def isDigitStr (s : String) : Bool := !s.isEmpty && s.data.all Char.isDigit

/-- The seed selection of parse_request_args (source lines 218 to 222): a
non-empty all-digit seed field is parsed with int(); otherwise the draw
rand of torch.randint(0, 2 to the 32 minus 1, (1,)).item() is used.  The
random draw is an oracle parameter; torch.randint's upper bound is
exclusive, so the oracle satisfies rand < 2 ^ 32 - 1. -/
def chooseSeed (seed_str : Option String) (rand : Nat) : Nat :=
  match seed_str with
  | some s => if isDigitStr s then strToNat s else rand
  | none => rand

/-- The two seed-dependent entries of the args dict built by
parse_request_args: the seed passed to torch.Generator.manual_seed (source
line 223) and the recorded args seed_value (source line 224). -/
structure SeedArgs where
  generator_seed : Nat
  seed_value : Nat
  deriving DecidableEq, Repr

/-- Seed handling of parse_request_args: both the generator seed and the
recorded seed_value are the chosen seed. -/
def parseSeedArgs (seed_str : Option String) (rand : Nat) : SeedArgs :=
  let seed := chooseSeed seed_str rand
  { generator_seed := seed, seed_value := seed }

/-- One HTTP request thread executing generate_image_endpoint: before the
capacity check; past the check but before the enqueue (the lock is released
in between while the request is parsed); finished with a 503 rejection;
finished with a 202 acceptance. -/
inductive ThreadState
  | ready (p : Params)
  | passedCheck (p : Params)
  | rejected
  | accepted (id : Nat)
  deriving DecidableEq, Repr

/-- Where the single image_generation_worker thread stands: idle between
iterations, computing a dequeued job, or past the status update but before
the finally block that drops the large params entries. -/
inductive WorkerPhase
  | idle
  | running (id : Nat)
  | cleaning (id : Nat)
  deriving DecidableEq, Repr

/-- A global configuration: the request threads, the worker thread, the
shared state under queue_lock, the results folder on disk, and three history
variables — usedIds records every uuid ever generated (uuid4 never repeats),
submitted the ids in order of their enqueue critical sections, started the
ids in order of their dequeue critical sections. -/
structure World where
  threads : List ThreadState
  worker : WorkerPhase
  state : ServerState
  fs : FileSystem
  usedIds : List Nat
  submitted : List Nat
  started : List Nat

/-- Interleaving semantics: one step is one critical section of the source
(or the lock-free artifact save merged with the status update that follows
it).  maxSize is Config.MAX_QUEUE_SIZE, ttl is Config.JOB_RESULT_TTL, folder
is Config.RESULTS_FOLDER. -/
inductive Step (maxSize ttl : Nat) (folder : String) : World → World → Prop
  | checkPass (w : World) (i : Nat) (p : Params)
      (ht : w.threads.get? i = some (.ready p))
      (hlen : w.state.job_queue.length < maxSize) :
      Step maxSize ttl folder w
        { w with threads := w.threads.set i (.passedCheck p) }
  | checkReject (w : World) (i : Nat) (p : Params)
      (ht : w.threads.get? i = some (.ready p))
      (hlen : maxSize ≤ w.state.job_queue.length) :
      Step maxSize ttl folder w
        { w with threads := w.threads.set i .rejected }
  | enqueue (w : World) (i : Nat) (p : Params) (id now : Nat)
      (ht : w.threads.get? i = some (.passedCheck p))
      (hid : id ∉ w.usedIds) :
      Step maxSize ttl folder w
        { w with threads := w.threads.set i (.accepted id),
                 state := submitEnqueue w.state id p now,
                 usedIds := id :: w.usedIds,
                 submitted := w.submitted ++ [id] }
  | dequeue (w : World) (id : Nat) (rest : List Nat) (now : Nat)
      (hw : w.worker = .idle)
      (hq : w.state.job_queue = id :: rest) :
      Step maxSize ttl folder w
        { w with worker := .running id,
                 state := { job_queue := rest,
                            job_results := updateRecord w.state.job_results id
                              (markProcessing now) },
                 started := w.started ++ [id] }
  | finishJob (w : World) (id : Nat) (o : ComputeOutcome) (now : Nat)
      (hw : w.worker = .running id) :
      Step maxSize ttl folder w
        { w with worker := .cleaning id,
                 state := { w.state with
                            job_results := updateRecord w.state.job_results id
                              (fun r => applyOutcome now (resultPathFor folder id) o
                                (popSeedValue r)) },
                 fs := saveArtifact (resultPathFor folder id) o w.fs }
  | releaseParams (w : World) (id : Nat)
      (hw : w.worker = .cleaning id) :
      Step maxSize ttl folder w
        { w with worker := .idle,
                 state := { w.state with
                            job_results := updateRecord w.state.job_results id
                              releaseParamsRec } }
  | sweep (w : World) (now : Nat) :
      Step maxSize ttl folder w
        { w with state := (cleanupSweep ttl now w.state w.fs).1,
                 fs := (cleanupSweep ttl now w.state w.fs).2 }

/-- Process start: empty queue, empty store, idle worker, no ids issued,
every request thread yet to run. -/
def InitWorld (w : World) : Prop :=
  w.worker = .idle ∧ w.state.job_queue = [] ∧ w.state.job_results = [] ∧
    w.usedIds = [] ∧ w.submitted = [] ∧ w.started = [] ∧
    ∀ t ∈ w.threads, ∃ p, t = ThreadState.ready p

/-- Reachability under the interleaving semantics. -/
def Reachable (maxSize ttl : Nat) (folder : String) : World → World → Prop :=
  Relation.ReflTransGen (Step maxSize ttl folder)

/-- An operation of the sequential (non-interleaved) execution model: a
whole submission (both critical sections back to back) or a worker dequeue. -/
inductive SeqOp
  | submit (id : Nat) (p : Params) (now : Nat)
  | dequeue (now : Nat)

/-- Sequential execution: submissions and dequeues applied one after the
other with no interleaving inside a submission. -/
def runSeq (maxSize : Nat) : List SeqOp → ServerState → ServerState
  | [], s => s
  | .submit id p now :: ops, s => runSeq maxSize ops (atomicSubmit maxSize s id p now).1
  | .dequeue now :: ops, s => runSeq maxSize ops (dequeueStep s now).1

/-- The status of the record stored under an id, as an observer reading the
store under the lock sees it. -/
def statusOf (s : ServerState) (id : Nat) : Option Status :=
  (findRecord s.job_results id).map JobRecord.status

theorem findRecord_cons_self (id : Nat) (r : JobRecord) (st : List (Nat × JobRecord)) :
    findRecord ((id, r) :: st) id = some r := by
  simp [findRecord]

theorem findRecord_cons_ne (k id : Nat) (r : JobRecord) (st : List (Nat × JobRecord))
    (h : k ≠ id) : findRecord ((k, r) :: st) id = findRecord st id := by
  simp [findRecord, h]

theorem findRecord_update_self (st : List (Nat × JobRecord)) (id : Nat)
    (f : JobRecord → JobRecord) :
    findRecord (updateRecord st id f) id = (findRecord st id).map f := by
  induction st with
  | nil => rfl
  | cons kr rest ih =>
      obtain ⟨k, r⟩ := kr
      by_cases hk : k = id
      · subst hk
        simp [updateRecord, findRecord]
      · simp [updateRecord, findRecord, hk] at ih ⊢
        exact ih

theorem findRecord_update_ne (st : List (Nat × JobRecord)) (id id' : Nat)
    (f : JobRecord → JobRecord) (h : id' ≠ id) :
    findRecord (updateRecord st id f) id' = findRecord st id' := by
  induction st with
  | nil => rfl
  | cons kr rest ih =>
      obtain ⟨k, r⟩ := kr
      by_cases hk : k = id
      · subst hk
        simp [updateRecord, findRecord, Ne.symm h]
        simpa [updateRecord] using ih
      · by_cases hk' : k = id'
        · subst hk'
          simp [updateRecord, findRecord, hk]
        · simp [updateRecord, findRecord, hk, hk'] at ih ⊢
          exact ih

theorem findRecord_erase_self (st : List (Nat × JobRecord)) (id : Nat) :
    findRecord (eraseRecord st id) id = none := by
  induction st with
  | nil => rfl
  | cons kr rest ih =>
      obtain ⟨k, r⟩ := kr
      by_cases hk : k = id
      · subst hk
        simpa [eraseRecord] using ih
      · simp [eraseRecord, findRecord, hk] at ih ⊢
        exact ih

theorem findRecord_erase_ne (st : List (Nat × JobRecord)) (id id' : Nat) (h : id' ≠ id) :
    findRecord (eraseRecord st id) id' = findRecord st id' := by
  induction st with
  | nil => rfl
  | cons kr rest ih =>
      obtain ⟨k, r⟩ := kr
      by_cases hk : k = id
      · subst hk
        simp [eraseRecord, findRecord, Ne.symm h]
        simpa [eraseRecord] using ih
      · by_cases hk' : k = id'
        · subst hk'
          simp [eraseRecord, findRecord, hk]
        · simp [eraseRecord, findRecord, hk, hk'] at ih ⊢
          exact ih

theorem findRecord_isSome_mem_keys (st : List (Nat × JobRecord)) (id : Nat)
    (h : (findRecord st id).isSome) : id ∈ st.map Prod.fst := by
  induction st with
  | nil => simp [findRecord] at h
  | cons kr rest ih =>
      obtain ⟨k, r⟩ := kr
      by_cases hk : k = id
      · subst hk; simp
      · simp [findRecord, hk] at h
        simp [ih h]

theorem statusOf_update_ne (s : ServerState) (q : List Nat) (id id' : Nat)
    (f : JobRecord → JobRecord) (h : id' ≠ id) :
    statusOf { job_queue := q, job_results := updateRecord s.job_results id f } id' =
      statusOf s id' := by
  simp [statusOf, findRecord_update_ne _ _ _ _ h]

/-- The status written by applyOutcome is terminal: completed on success,
failed on every failure kind. -/
theorem applyOutcome_status (now : Nat) (path : String) (o : ComputeOutcome) (r : JobRecord) :
    (applyOutcome now path o r).status = .completed ∨
      (applyOutcome now path o r).status = .failed := by
  cases o <;> simp [applyOutcome]

theorem applyOutcome_status_ne_queued (now : Nat) (path : String) (o : ComputeOutcome)
    (r : JobRecord) : (applyOutcome now path o r).status ≠ .queued := by
  rcases applyOutcome_status now path o r with h | h <;> simp [h]

/-- applyOutcome sets completion_time only on success; every failure handler
of the source leaves the key untouched. -/
theorem applyOutcome_completion_time (now : Nat) (path : String) (o : ComputeOutcome)
    (r : JobRecord) :
    (applyOutcome now path o r).completion_time =
      (if o = .success then some now else r.completion_time) := by
  cases o <;> simp [applyOutcome]

theorem popSeedValue_status (r : JobRecord) : (popSeedValue r).status = r.status := rfl

theorem popSeedValue_completion_time (r : JobRecord) :
    (popSeedValue r).completion_time = r.completion_time := rfl

theorem releaseParamsRec_status (r : JobRecord) :
    (releaseParamsRec r).status = r.status := rfl

theorem releaseParamsRec_completion_time (r : JobRecord) :
    (releaseParamsRec r).completion_time = r.completion_time := rfl

theorem markProcessing_status (now : Nat) (r : JobRecord) :
    (markProcessing now r).status = .processing := rfl

theorem markProcessing_completion_time (now : Nat) (r : JobRecord) :
    (markProcessing now r).completion_time = r.completion_time := rfl

theorem findRecord_update_isSome (st : List (Nat × JobRecord)) (id id' : Nat)
    (f : JobRecord → JobRecord) :
    (findRecord (updateRecord st id f) id').isSome = (findRecord st id').isSome := by
  by_cases h : id' = id
  · subst h
    rw [findRecord_update_self]
    cases findRecord st id' <;> rfl
  · rw [findRecord_update_ne _ _ _ _ h]

/-- Membership in the sweeper's expired list, characterised: the record
exists and its expiry test passes. -/
theorem mem_expiredIds (ttl now : Nat) (s : ServerState) (id : Nat) :
    id ∈ expiredIds ttl now s ↔
      ∃ r, findRecord s.job_results id = some r ∧ isExpired ttl now r = true := by
  constructor
  · intro h
    rcases List.mem_filter.mp h with ⟨-, hp⟩
    cases hf : findRecord s.job_results id with
    | none => rw [hf] at hp; simp at hp
    | some r => rw [hf] at hp; exact ⟨r, rfl, hp⟩
  · rintro ⟨r, hf, he⟩
    refine List.mem_filter.mpr ⟨?_, ?_⟩
    · exact findRecord_isSome_mem_keys _ _ (by simp [hf])
    · rw [hf]; exact he

theorem sweepOne_queue (s : ServerState) (fs : FileSystem) (id : Nat) :
    (sweepOne s fs id).1.job_queue = s.job_queue := by
  unfold sweepOne
  cases findRecord s.job_results id <;> rfl

theorem sweepFold_queue (ids : List Nat) (acc : ServerState × FileSystem) :
    (sweepFold ids acc).1.job_queue = acc.1.job_queue := by
  induction ids generalizing acc with
  | nil => rfl
  | cons id ids ih => rw [sweepFold, ih, sweepOne_queue]

theorem sweepOne_find_some (s : ServerState) (fs : FileSystem) (id id' : Nat) (r : JobRecord)
    (h : findRecord (sweepOne s fs id).1.job_results id' = some r) :
    findRecord s.job_results id' = some r := by
  unfold sweepOne at h
  cases hf : findRecord s.job_results id with
  | none => rw [hf] at h; exact h
  | some q =>
      rw [hf] at h
      by_cases hid : id' = id
      · subst hid
        rw [findRecord_erase_self] at h
        exact absurd h (by simp)
      · rwa [findRecord_erase_ne _ _ _ hid] at h

theorem sweepFold_find_some (ids : List Nat) (acc : ServerState × FileSystem)
    (id : Nat) (r : JobRecord)
    (h : findRecord (sweepFold ids acc).1.job_results id = some r) :
    findRecord acc.1.job_results id = some r := by
  induction ids generalizing acc with
  | nil => exact h
  | cons i ids ih => exact sweepOne_find_some _ _ _ _ _ (ih _ h)

theorem sweepOne_find_ne (s : ServerState) (fs : FileSystem) (id id' : Nat) (h : id' ≠ id) :
    findRecord (sweepOne s fs id).1.job_results id' = findRecord s.job_results id' := by
  unfold sweepOne
  cases findRecord s.job_results id with
  | none => rfl
  | some q => exact findRecord_erase_ne _ _ _ h

theorem sweepFold_not_mem (ids : List Nat) (acc : ServerState × FileSystem) (id : Nat)
    (h : id ∉ ids) :
    findRecord (sweepFold ids acc).1.job_results id = findRecord acc.1.job_results id := by
  induction ids generalizing acc with
  | nil => rfl
  | cons i ids ih =>
      rw [sweepFold, ih _ (fun hm => h (List.mem_cons_of_mem _ hm))]
      exact sweepOne_find_ne _ _ _ _ (fun he => h (he ▸ List.mem_cons_self _ _))

theorem sweepOne_find_none (s : ServerState) (fs : FileSystem) (id id' : Nat)
    (h : findRecord s.job_results id' = none) :
    findRecord (sweepOne s fs id).1.job_results id' = none := by
  unfold sweepOne
  cases findRecord s.job_results id with
  | none => exact h
  | some q =>
      by_cases hid : id' = id
      · subst hid; exact findRecord_erase_self _ _
      · rwa [findRecord_erase_ne _ _ _ hid]

theorem sweepFold_find_none (ids : List Nat) (acc : ServerState × FileSystem) (id : Nat)
    (h : findRecord acc.1.job_results id = none) :
    findRecord (sweepFold ids acc).1.job_results id = none := by
  induction ids generalizing acc with
  | nil => exact h
  | cons i ids ih => exact ih _ (sweepOne_find_none _ _ _ _ h)

/-- Once an id is in the sweep list, its record is gone after the fold. -/
theorem sweepFold_mem_none (ids : List Nat) (acc : ServerState × FileSystem) (id : Nat)
    (h : id ∈ ids) :
    findRecord (sweepFold ids acc).1.job_results id = none := by
  induction ids generalizing acc with
  | nil => cases h
  | cons i ids ih =>
      rcases List.mem_cons.mp h with he | hm
      · subst he
        rw [sweepFold]
        apply sweepFold_find_none
        unfold sweepOne
        cases hf : findRecord acc.1.job_results id with
        | none => exact hf
        | some q => exact findRecord_erase_self _ _
      · exact ih _ hm

theorem osRemove_failing (fs : FileSystem) (p : String) :
    (osRemove fs p).failing = fs.failing := by
  unfold osRemove
  split <;> rfl

theorem sweepOne_failing (s : ServerState) (fs : FileSystem) (id : Nat) :
    (sweepOne s fs id).2.failing = fs.failing := by
  cases hf : findRecord s.job_results id with
  | none => simp [sweepOne, hf]
  | some r =>
      cases hp : r.result_path with
      | none => simp [sweepOne, hf, hp]
      | some p => simp [sweepOne, hf, hp, osRemove_failing]

theorem osRemove_not_mem (fs : FileSystem) (p q : String) (h : p ∉ fs.files) :
    p ∉ (osRemove fs q).files := by
  unfold osRemove
  split
  · exact h
  · intro hm
    exact h (List.mem_of_mem_filter hm)

theorem sweepOne_files_not_mem (s : ServerState) (fs : FileSystem) (id : Nat) (p : String)
    (h : p ∉ fs.files) : p ∉ (sweepOne s fs id).2.files := by
  cases hf : findRecord s.job_results id with
  | none => simpa [sweepOne, hf] using h
  | some r =>
      cases hp : r.result_path with
      | none => simpa [sweepOne, hf, hp] using h
      | some q =>
          simp only [sweepOne, hf, hp]
          exact osRemove_not_mem _ _ _ h

theorem sweepFold_files_not_mem (ids : List Nat) (acc : ServerState × FileSystem) (p : String)
    (h : p ∉ acc.2.files) : p ∉ (sweepFold ids acc).2.files := by
  induction ids generalizing acc with
  | nil => exact h
  | cons i ids ih => exact ih _ (sweepOne_files_not_mem _ _ _ _ h)

theorem osRemove_removes (fs : FileSystem) (p : String) (h : p ∉ fs.failing) :
    p ∉ (osRemove fs p).files := by
  unfold osRemove
  rw [if_neg h]
  intro hm
  exact absurd (List.of_mem_filter hm) (by simp)

theorem isExpired_ct_none (ttl now : Nat) (r : JobRecord) (h : r.completion_time = none) :
    isExpired ttl now r = false := by
  simp [isExpired, h]

theorem not_mem_expiredIds (ttl now : Nat) (s : ServerState) (id : Nat) (r : JobRecord)
    (hf : findRecord s.job_results id = some r) (he : isExpired ttl now r = false) :
    id ∉ expiredIds ttl now s := by
  intro hm
  rcases (mem_expiredIds ttl now s id).mp hm with ⟨r', hf', he'⟩
  rw [hf] at hf'
  cases hf'
  exact absurd he' (by simp [he])

/-- A record whose expiry test fails survives one whole sweep unchanged. -/
theorem cleanupSweep_preserves (ttl now : Nat) (s : ServerState) (fs : FileSystem)
    (id : Nat) (r : JobRecord) (hf : findRecord s.job_results id = some r)
    (he : isExpired ttl now r = false) :
    findRecord (cleanupSweep ttl now s fs).1.job_results id = some r := by
  rw [cleanupSweep, sweepFold_not_mem _ _ _ (not_mem_expiredIds ttl now s id r hf he)]
  exact hf

theorem cleanupSweep_queue (ttl now : Nat) (s : ServerState) (fs : FileSystem) :
    (cleanupSweep ttl now s fs).1.job_queue = s.job_queue :=
  sweepFold_queue _ _

theorem cleanupSweep_find_some (ttl now : Nat) (s : ServerState) (fs : FileSystem)
    (id : Nat) (r : JobRecord)
    (h : findRecord (cleanupSweep ttl now s fs).1.job_results id = some r) :
    findRecord s.job_results id = some r :=
  sweepFold_find_some _ _ _ _ h

/-- If a deletable artifact path belongs to a record whose id is in the
sweep list, the path is gone from disk after the fold. -/
theorem sweepFold_deletes (ids : List Nat) (s : ServerState) (fs : FileSystem)
    (id : Nat) (r : JobRecord) (p : String)
    (hnd : ids.Nodup) (hm : id ∈ ids)
    (hf : findRecord s.job_results id = some r) (hp : r.result_path = some p)
    (hfail : p ∉ fs.failing) :
    p ∉ (sweepFold ids (s, fs)).2.files := by
  induction ids generalizing s fs with
  | nil => cases hm
  | cons i ids ih =>
      rcases List.mem_cons.mp hm with he | hmem
      · subst he
        rw [sweepFold]
        apply sweepFold_files_not_mem
        show p ∉ (sweepOne s fs id).2.files
        simp only [sweepOne, hf, hp]
        exact osRemove_removes _ _ hfail
      · have hne : id ≠ i := by
          intro he
          subst he
          exact (List.nodup_cons.mp hnd).1 hmem
        rw [sweepFold]
        refine ih (sweepOne s fs i).1 (sweepOne s fs i).2 (List.nodup_cons.mp hnd).2 hmem ?_ ?_
        · rw [sweepOne_find_ne _ _ _ _ hne]
          exact hf
        · rw [sweepOne_failing]
          exact hfail

/-- The inductive invariant of the lifecycle engine, holding in every
reachable configuration:
queueStatus is the queue/store consistency of the specification (an id is in
the admission queue exactly when its record reads queued);
queueNodup, storeUsed are bookkeeping (no duplicate queue entries, every
stored id was issued);
workerStatus says the job the worker is computing reads processing;
ctCompleted says a completion_time key is only ever present on a completed
record (the source's failure handlers set none);
fifo relates the history variables: the ids enqueued so far are exactly the
ids dequeued so far followed by the current queue, in order. -/
structure Inv (w : World) : Prop where
  queueStatus : ∀ id, id ∈ w.state.job_queue ↔ statusOf w.state id = some .queued
  queueNodup : w.state.job_queue.Nodup
  storeUsed : ∀ id, (findRecord w.state.job_results id).isSome → id ∈ w.usedIds
  workerStatus : ∀ id, w.worker = .running id → statusOf w.state id = some .processing
  ctCompleted : ∀ id r, findRecord w.state.job_results id = some r →
    r.completion_time.isSome → r.status = .completed
  fifo : w.submitted = w.started ++ w.state.job_queue

theorem inv_init (w : World) (h : InitWorld w) : Inv w := by
  obtain ⟨hw, hq, hst, hu, hsub, hstart, -⟩ := h
  refine ⟨?_, ?_, ?_, ?_, ?_, ?_⟩
  · intro id
    rw [hq]
    simp [statusOf, hst, findRecord]
  · rw [hq]
    exact List.nodup_nil
  · intro id hs
    rw [hst] at hs
    simp [findRecord] at hs
  · intro id hr
    rw [hw] at hr
    exact WorkerPhase.noConfusion hr
  · intro id r hf
    rw [hst] at hf
    simp [findRecord] at hf
  · rw [hq, hsub, hstart]
    rfl

theorem inv_step (maxSize ttl : Nat) (folder : String) (w w' : World)
    (hI : Inv w) (hs : Step maxSize ttl folder w w') : Inv w' := by
  obtain ⟨hQS, hND, hSU, hWS, hCT, hFF⟩ := hI
  cases hs with
  | checkPass i p ht hlen =>
      exact ⟨hQS, hND, hSU, hWS, hCT, hFF⟩
  | checkReject i p ht hlen =>
      exact ⟨hQS, hND, hSU, hWS, hCT, hFF⟩
  | enqueue i p id now ht hid =>
      have hidq : id ∉ w.state.job_queue := by
        intro hm
        have := (hQS id).mp hm
        exact hid (hSU id (by simp [statusOf] at this; rcases this with ⟨r, hr, -⟩; simp [hr]))
      refine ⟨?_, ?_, ?_, ?_, ?_, ?_⟩
      · intro id'
        show id' ∈ w.state.job_queue ++ [id] ↔
          statusOf (submitEnqueue w.state id p now) id' = some .queued
        by_cases h : id' = id
        · subst h
          simp [statusOf, submitEnqueue, findRecord_cons_self, newRecord]
        · rw [List.mem_append]
          simp only [statusOf, submitEnqueue, findRecord_cons_ne id id' _ _ (Ne.symm h)]
          constructor
          · rintro (hm | hm)
            · exact (hQS id').mp hm
            · simp at hm
              exact absurd hm h
          · intro hst
            exact Or.inl ((hQS id').mpr hst)
      · show (w.state.job_queue ++ [id]).Nodup
        rw [List.nodup_append]
        refine ⟨hND, List.nodup_singleton id, ?_⟩
        intro a ha hb
        simp at hb
        subst hb
        exact hidq ha
      · intro id' hsome
        show id' ∈ id :: w.usedIds
        by_cases h : id' = id
        · subst h
          exact List.mem_cons_self _ _
        · simp only [submitEnqueue] at hsome
          rw [findRecord_cons_ne id id' _ _ (Ne.symm h)] at hsome
          exact List.mem_cons_of_mem _ (hSU id' hsome)
      · intro id' hr
        have hold := hWS id' hr
        have hne : id' ≠ id := by
          intro he
          subst he
          have : (findRecord w.state.job_results id').isSome := by
            simp [statusOf] at hold
            rcases hold with ⟨r, hr', -⟩
            simp [hr']
          exact hid (hSU id' this)
        show statusOf (submitEnqueue w.state id p now) id' = some .processing
        simp only [statusOf, submitEnqueue, findRecord_cons_ne id id' _ _ (Ne.symm hne)]
        exact hold
      · intro id' r hf hct
        by_cases h : id' = id
        · subst h
          simp only [submitEnqueue] at hf
          rw [findRecord_cons_self] at hf
          cases hf
          simp [newRecord] at hct
        · simp only [submitEnqueue] at hf
          rw [findRecord_cons_ne id id' _ _ (Ne.symm h)] at hf
          exact hCT id' r hf hct
      · show w.submitted ++ [id] = w.started ++ (w.state.job_queue ++ [id])
        rw [hFF, List.append_assoc]
  | dequeue id rest now hw hq =>
      have hmem : id ∈ w.state.job_queue := by rw [hq]; exact List.mem_cons_self _ _
      obtain ⟨r, hr, hrq⟩ : ∃ r, findRecord w.state.job_results id = some r ∧
          r.status = .queued := by
        have := (hQS id).mp hmem
        simp [statusOf] at this
        rcases this with ⟨r, hr, hrq⟩
        exact ⟨r, hr, hrq⟩
      have hnd' : rest.Nodup ∧ id ∉ rest := by
        have := hq ▸ hND
        rw [List.nodup_cons] at this
        exact ⟨this.2, this.1⟩
      refine ⟨?_, ?_, ?_, ?_, ?_, ?_⟩
      · intro id'
        by_cases h : id' = id
        · subst h
          constructor
          · intro hm
            exact absurd hm hnd'.2
          · intro hst
            simp only [statusOf, findRecord_update_self, hr, Option.map_some] at hst
            simp [markProcessing] at hst
        · constructor
          · intro hm
            have : id' ∈ w.state.job_queue := by rw [hq]; exact List.mem_cons_of_mem _ hm
            have := (hQS id').mp this
            simpa [statusOf, findRecord_update_ne _ _ _ _ h] using this
          · intro hst
            have : statusOf w.state id' = some .queued := by
              simpa [statusOf, findRecord_update_ne _ _ _ _ h] using hst
            have := (hQS id').mpr this
            rw [hq] at this
            rcases List.mem_cons.mp this with he | hm
            · exact absurd he h
            · exact hm
      · exact hnd'.1
      · intro id' hsome
        rw [findRecord_update_isSome] at hsome
        exact hSU id' hsome
      · intro id' hr'
        have : id' = id := by
          cases hr'
          rfl
        subst this
        simp [statusOf, findRecord_update_self, hr, markProcessing]
      · intro id' r' hf hct
        by_cases h : id' = id
        · subst h
          rw [findRecord_update_self, hr] at hf
          cases hf
          rw [markProcessing_completion_time] at hct
          have := hCT id' r hr hct
          rw [hrq] at this
          exact absurd this (by simp)
        · rw [findRecord_update_ne _ _ _ _ h] at hf
          exact hCT id' r' hf hct
      · show w.submitted = (w.started ++ [id]) ++ rest
        rw [hFF, hq, List.append_assoc]
        rfl
  | finishJob id o now hw =>
      obtain ⟨r, hr, hrp⟩ : ∃ r, findRecord w.state.job_results id = some r ∧
          r.status = .processing := by
        have := hWS id hw
        simp [statusOf] at this
        rcases this with ⟨r, hr, hrp⟩
        exact ⟨r, hr, hrp⟩
      have hnq : id ∉ w.state.job_queue := by
        intro hm
        have := (hQS id).mp hm
        simp [statusOf, hr, hrp] at this
      refine ⟨?_, ?_, ?_, ?_, ?_, ?_⟩
      · intro id'
        by_cases h : id' = id
        · subst h
          constructor
          · intro hm
            exact absurd hm hnq
          · intro hst
            simp only [statusOf, findRecord_update_self, hr, Option.map_some] at hst
            exact absurd (Option.some.inj hst)
              (applyOutcome_status_ne_queued now (resultPathFor folder id') o (popSeedValue r))
        · simp only [statusOf, findRecord_update_ne _ _ _ _ h]
          exact hQS id'
      · exact hND
      · intro id' hsome
        rw [findRecord_update_isSome] at hsome
        exact hSU id' hsome
      · intro id' hr'
        exact WorkerPhase.noConfusion hr'
      · intro id' r' hf hct
        by_cases h : id' = id
        · subst h
          rw [findRecord_update_self, hr] at hf
          cases hf
          by_cases ho : o = .success
          · subst ho
            simp [applyOutcome]
          · rw [applyOutcome_completion_time, if_neg ho, popSeedValue_completion_time] at hct
            have := hCT id' r hr hct
            rw [hrp] at this
            exact absurd this (by simp)
        · rw [findRecord_update_ne _ _ _ _ h] at hf
          exact hCT id' r' hf hct
      · exact hFF
  | releaseParams id hw =>
      have hstat : ∀ id', statusOf { w.state with
          job_results := updateRecord w.state.job_results id releaseParamsRec } id' =
          statusOf w.state id' := by
        intro id'
        by_cases h : id' = id
        · subst h
          simp only [statusOf, findRecord_update_self]
          cases findRecord w.state.job_results id' <;> simp [releaseParamsRec_status]
        · simp only [statusOf, findRecord_update_ne _ _ _ _ h]
      refine ⟨?_, ?_, ?_, ?_, ?_, ?_⟩
      · intro id'
        rw [hstat id']
        exact hQS id'
      · exact hND
      · intro id' hsome
        rw [findRecord_update_isSome] at hsome
        exact hSU id' hsome
      · intro id' hr'
        exact WorkerPhase.noConfusion hr'
      · intro id' r' hf hct
        by_cases h : id' = id
        · subst h
          rw [findRecord_update_self] at hf
          cases hg : findRecord w.state.job_results id' with
          | none => rw [hg] at hf; exact absurd hf (by simp)
          | some r0 =>
              rw [hg] at hf
              cases hf
              rw [releaseParamsRec_completion_time] at hct
              rw [releaseParamsRec_status]
              exact hCT id' r0 hg hct
        · rw [findRecord_update_ne _ _ _ _ h] at hf
          exact hCT id' r' hf hct
      · exact hFF
  | sweep now =>
      have hqeq : (cleanupSweep ttl now w.state w.fs).1.job_queue = w.state.job_queue :=
        cleanupSweep_queue _ _ _ _
      refine ⟨?_, ?_, ?_, ?_, ?_, ?_⟩
      · intro id
        rw [hqeq]
        constructor
        · intro hm
          have hst := (hQS id).mp hm
          simp [statusOf] at hst
          rcases hst with ⟨r, hr, hrq⟩
          have hct : r.completion_time = none := by
            rcases hcase : r.completion_time with - | ct
            · rfl
            · have := hCT id r hr (by simp [hcase])
              rw [hrq] at this
              exact absurd this (by simp)
          have := cleanupSweep_preserves ttl now w.state w.fs id r hr
            (isExpired_ct_none ttl now r hct)
          simp [statusOf, this, hrq]
        · intro hst
          simp [statusOf] at hst
          rcases hst with ⟨r, hr, hrq⟩
          have := cleanupSweep_find_some ttl now w.state w.fs id r hr
          exact (hQS id).mpr (by simp [statusOf, this, hrq])
      · rw [hqeq]
        exact hND
      · intro id hsome
        cases hg : findRecord (cleanupSweep ttl now w.state w.fs).1.job_results id with
        | none => rw [hg] at hsome; exact absurd hsome (by simp)
        | some r =>
            have := cleanupSweep_find_some ttl now w.state w.fs id r hg
            exact hSU id (by simp [this])
      · intro id hr'
        have hold := hWS id hr'
        simp [statusOf] at hold
        rcases hold with ⟨r, hr, hrp⟩
        have hct : r.completion_time = none := by
          rcases hcase : r.completion_time with - | ct
          · rfl
          · have := hCT id r hr (by simp [hcase])
            rw [hrp] at this
            exact absurd this (by simp)
        have := cleanupSweep_preserves ttl now w.state w.fs id r hr
          (isExpired_ct_none ttl now r hct)
        simp [statusOf, this, hrp]
      · intro id r hf hct
        exact hCT id r (cleanupSweep_find_some ttl now w.state w.fs id r hf) hct
      · rw [hqeq]
        exact hFF

theorem inv_reachable (maxSize ttl : Nat) (folder : String) (w0 w : World)
    (h0 : InitWorld w0) (hr : Reachable maxSize ttl folder w0 w) : Inv w := by
  induction hr with
  | refl => exact inv_init w0 h0
  | tail hsteps hstep ih => exact inv_step maxSize ttl folder _ _ ih hstep

/-- Default value of Config.RESULTS_FOLDER. -/
def resFolder : String := "generated_images"

/-- A concrete parsed request payload, for the executable scenarios below. -/
def exParams : Params :=
  { image := some 1, generator := some 2, seed_value := some 42, prompt := "edit the sky",
    width := 1024, height := 1024, num_inference_steps := 28,
    max_sequence_length := 512, num_images_per_prompt := 1 }

/-- Concrete scenario, MAX_QUEUE_SIZE = 1: process start with two request
threads about to submit. -/
def ex0 : World :=
  { threads := [.ready exParams, .ready exParams], worker := .idle,
    state := { job_queue := [], job_results := [] },
    fs := { files := [], failing := [] },
    usedIds := [], submitted := [], started := [] }

/-- Thread 0 passes the capacity check (queue empty). -/
def ex1 : World := { ex0 with threads := ex0.threads.set 0 (.passedCheck exParams) }

/-- Thread 1 also passes the capacity check before thread 0 enqueues. -/
def ex2 : World := { ex1 with threads := ex1.threads.set 1 (.passedCheck exParams) }

/-- Thread 0 enqueues job 0. -/
def ex3 : World :=
  { ex2 with threads := ex2.threads.set 0 (.accepted 0),
             state := submitEnqueue ex2.state 0 exParams 10,
             usedIds := 0 :: ex2.usedIds,
             submitted := ex2.submitted ++ [0] }

/-- Thread 1 enqueues job 1: the queue now holds 2 jobs though the
configured maximum is 1. -/
def ex4 : World :=
  { ex3 with threads := ex3.threads.set 1 (.accepted 1),
             state := submitEnqueue ex3.state 1 exParams 11,
             usedIds := 1 :: ex3.usedIds,
             submitted := ex3.submitted ++ [1] }

/-- The worker dequeues job 0 and marks it processing. -/
def ex5 : World :=
  { ex4 with worker := .running 0,
             state := { job_queue := [1],
                        job_results := updateRecord ex4.state.job_results 0
                          (markProcessing 12) },
             started := ex4.started ++ [0] }

theorem ex0_init : InitWorld ex0 := by
  refine ⟨rfl, rfl, rfl, rfl, rfl, rfl, ?_⟩
  intro t ht
  rcases List.mem_cons.mp ht with h | h
  · exact ⟨exParams, h⟩
  · rcases List.mem_cons.mp h with h' | h'
    · exact ⟨exParams, h'⟩
    · cases h'

theorem ex_step01 : Step 1 600 resFolder ex0 ex1 :=
  Step.checkPass ex0 0 exParams rfl (by decide)

theorem ex_step12 : Step 1 600 resFolder ex1 ex2 :=
  Step.checkPass ex1 1 exParams rfl (by decide)

theorem ex_step23 : Step 1 600 resFolder ex2 ex3 :=
  Step.enqueue ex2 0 exParams 0 10 rfl (by decide)

theorem ex_step34 : Step 1 600 resFolder ex3 ex4 :=
  Step.enqueue ex3 1 exParams 1 11 rfl (by decide)

theorem ex_step45 : Step 1 600 resFolder ex4 ex5 :=
  Step.dequeue ex4 0 [1] 12 rfl (by decide)

theorem ex_reach04 : Reachable 1 600 resFolder ex0 ex4 :=
  Relation.ReflTransGen.tail
    (Relation.ReflTransGen.tail
      (Relation.ReflTransGen.tail
        (Relation.ReflTransGen.tail Relation.ReflTransGen.refl ex_step01)
        ex_step12)
      ex_step23)
    ex_step34

theorem ex_reach05 : Reachable 1 600 resFolder ex0 ex5 :=
  Relation.ReflTransGen.tail ex_reach04 ex_step45

/-- Claim C1, counterexample.  The claim says the queue length never exceeds
MAX_QUEUE_SIZE and that the capacity check is atomic with the enqueue.  In
the source the check (line 364) and the enqueue (line 388) sit in two
separate critical sections with the lock released in between for request
parsing, and the enqueue re-checks nothing; with MAX_QUEUE_SIZE = 1, two
interleaved submissions both pass the check on the empty queue and both
enqueue, reaching a state whose queue holds 2 jobs. -/
theorem C1_counterexample :
    InitWorld ex0 ∧ Reachable 1 600 resFolder ex0 ex4 ∧
      1 < ex4.state.job_queue.length :=
  ⟨ex0_init, ex_reach04, by decide⟩

/-- Auxiliary bound for the amended C1: sequential execution keeps the queue
within capacity. -/
theorem runSeq_length_le (maxSize : Nat) (ops : List SeqOp) (s : ServerState)
    (h : s.job_queue.length ≤ maxSize) :
    (runSeq maxSize ops s).job_queue.length ≤ maxSize := by
  induction ops generalizing s with
  | nil => exact h
  | cons op ops ih =>
      cases op with
      | submit id p now =>
          rw [runSeq]
          apply ih
          by_cases hfull : maxSize ≤ s.job_queue.length
          · simp [atomicSubmit, hfull]
            exact h
          · simp [atomicSubmit, hfull, submitEnqueue]
            omega
      | dequeue now =>
          rw [runSeq]
          apply ih
          cases hq : s.job_queue with
          | nil => simp [dequeueStep, hq]
          | cons id rest =>
              simp [dequeueStep, hq]
              rw [hq] at h
              simp at h
              omega

/-- Claim C1, amended.  A submission arriving when the queue already holds
MAX_QUEUE_SIZE jobs is rejected as QueueFull without creating a record and
without mutating queue or store; and in every execution in which submissions
do not interleave (each submission's capacity check and enqueue run back to
back, as atomicSubmit composes the source's two critical sections), the
queue length never exceeds MAX_QUEUE_SIZE.  The unqualified bound of the
original claim fails because the check is not atomic with the enqueue (see
the counterexample). -/
theorem C1_amended_capacity (maxSize : Nat) (ops : List SeqOp) :
    (runSeq maxSize ops { job_queue := [], job_results := [] }).job_queue.length ≤ maxSize ∧
    (∀ s id p now, maxSize ≤ s.job_queue.length →
      atomicSubmit maxSize s id p now = (s, .queueFull)) := by
  constructor
  · exact runSeq_length_le maxSize ops _ (by simp)
  · intro s id p now hfull
    simp [atomicSubmit, hfull]

/-- Claim C1, witness for the amended theorem: two sequential submissions
with capacity 1 leave at most one job queued, and a submission against a
full queue is rejected leaving the state untouched. -/
theorem C1_amended_witness :
    (runSeq 1 [SeqOp.submit 0 exParams 10, SeqOp.submit 1 exParams 11]
        { job_queue := [], job_results := [] }).job_queue.length ≤ 1 ∧
    atomicSubmit 1 { job_queue := [5], job_results := [] } 7 exParams 3 =
      ({ job_queue := [5], job_results := [] }, .queueFull) :=
  ⟨(C1_amended_capacity 1 [SeqOp.submit 0 exParams 10, SeqOp.submit 1 exParams 11]).1,
   (C1_amended_capacity 1 []).2 { job_queue := [5], job_results := [] } 7 exParams 3
     (by decide)⟩

/-- Concrete record of a job the worker has dequeued: status processing,
start_time stamped, no completion_time yet. -/
def procRecord : JobRecord :=
  { status := .processing, params := exParams, submit_time := 10, start_time := some 12,
    completion_time := none, result_path := none, error := none }

/-- Claim C2, code bug.  The claim (and the specification) say every failure
handler writes status Failed, an error message and completionTime now.  The
source's three failure handlers (OutOfMemoryError, RuntimeError, Exception;
lines 314 to 345) write only status and error and never set completion_time,
so a failed record keeps no completion_time, its expiry test never fires and
the cleanup worker never evicts it; only the success handler stamps
completion_time.  Evaluated here on a concrete processing record for every
failure kind the worker handles. -/
theorem C2_failure_no_completion_time :
    ((applyOutcome 20 (resultPathFor resFolder 0) .oom (popSeedValue procRecord)).status
        = .failed ∧
      (applyOutcome 20 (resultPathFor resFolder 0) .oom
        (popSeedValue procRecord)).error = some oomMessage ∧
      (applyOutcome 20 (resultPathFor resFolder 0) .oom
        (popSeedValue procRecord)).completion_time = none) ∧
    (∀ d, (applyOutcome 20 (resultPathFor resFolder 0) (.runtimeFault d)
        (popSeedValue procRecord)).completion_time = none) ∧
    (∀ d, (applyOutcome 20 (resultPathFor resFolder 0) (.otherFault d)
        (popSeedValue procRecord)).completion_time = none) ∧
    (∀ ttl now, isExpired ttl now (applyOutcome 20 (resultPathFor resFolder 0) .oom
        (popSeedValue procRecord)) = false) ∧
    (applyOutcome 20 (resultPathFor resFolder 0) .success
        (popSeedValue procRecord)).completion_time = some 20 := by
  refine ⟨⟨rfl, rfl, rfl⟩, fun d => rfl, fun d => rfl, fun ttl now => rfl, rfl⟩

/-- Claim C3.  After one sweep: every record whose completion_time is set
and strictly older than the retention window is gone from the store; its
artifact file is gone from disk whenever os.remove does not fail on that
path (and the record is removed even when os.remove does fail, since the
first conjunct carries no condition on fs.failing); and a record without a
completion_time key survives the sweep untouched.  The nodup hypothesis
states the store's keys are distinct, which holds for a Python dict. -/
theorem C3_cleanup_sweep (ttl now : Nat) (s : ServerState) (fs : FileSystem)
    (hnd : (s.job_results.map Prod.fst).Nodup) :
    (∀ id r, findRecord s.job_results id = some r → isExpired ttl now r = true →
      findRecord (cleanupSweep ttl now s fs).1.job_results id = none) ∧
    (∀ id r p, findRecord s.job_results id = some r → isExpired ttl now r = true →
      r.result_path = some p → p ∉ fs.failing →
      p ∉ (cleanupSweep ttl now s fs).2.files) ∧
    (∀ id r, findRecord s.job_results id = some r → r.completion_time = none →
      findRecord (cleanupSweep ttl now s fs).1.job_results id = some r) := by
  refine ⟨?_, ?_, ?_⟩
  · intro id r hf he
    rw [cleanupSweep]
    exact sweepFold_mem_none _ _ _ ((mem_expiredIds ttl now s id).mpr ⟨r, hf, he⟩)
  · intro id r p hf he hp hfail
    rw [cleanupSweep]
    exact sweepFold_deletes _ s fs id r p (List.Nodup.filter _ hnd)
      ((mem_expiredIds ttl now s id).mpr ⟨r, hf, he⟩) hf hp hfail
  · intro id r hf hct
    exact cleanupSweep_preserves ttl now s fs id r hf (isExpired_ct_none ttl now r hct)

/-- Completed record for job 1, expired at the scenario's sweep time. -/
def doneRec1 : JobRecord :=
  { status := .completed, params := exParams, submit_time := 0, start_time := some 1,
    completion_time := some 0, result_path := some "generated_images/1.png", error := none }

/-- Completed record for job 2, expired, but its artifact deletion fails. -/
def doneRec2 : JobRecord :=
  { status := .completed, params := exParams, submit_time := 50, start_time := some 60,
    completion_time := some 100, result_path := some "generated_images/2.png", error := none }

/-- Store for the sweep scenario: two expired completed jobs and one job
still processing (no completion_time). -/
def sC3 : ServerState :=
  { job_queue := [], job_results := [(1, doneRec1), (2, doneRec2), (3, procRecord)] }

/-- Disk for the sweep scenario: both artifacts exist, deleting job 2's
artifact raises OSError. -/
def fsC3 : FileSystem :=
  { files := ["generated_images/1.png", "generated_images/2.png"],
    failing := ["generated_images/2.png"] }

/-- Claim C3, witness: with TTL 600 at time 1000, jobs 1 and 2 (completed at
0 and 100) are evicted — job 2 despite the failing file deletion — job 1's
artifact is deleted, and processing job 3 is untouched. -/
theorem C3_witness :
    findRecord (cleanupSweep 600 1000 sC3 fsC3).1.job_results 1 = none ∧
    "generated_images/1.png" ∉ (cleanupSweep 600 1000 sC3 fsC3).2.files ∧
    findRecord (cleanupSweep 600 1000 sC3 fsC3).1.job_results 2 = none ∧
    findRecord (cleanupSweep 600 1000 sC3 fsC3).1.job_results 3 = some procRecord := by
  have h := C3_cleanup_sweep 600 1000 sC3 fsC3 (by decide)
  exact ⟨h.1 1 doneRec1 (by decide) (by decide),
         h.2.1 1 doneRec1 "generated_images/1.png" (by decide) (by decide) rfl (by decide),
         h.1 2 doneRec2 (by decide) (by decide),
         h.2.2 3 procRecord (by decide) rfl⟩

/-- Claim C4.  In every reachable configuration, an id is in the admission
queue exactly when its record's status is queued.  The submission's record
creation plus enqueue is the single step Step.enqueue and the worker's
popleft plus status/start_time write is the single step Step.dequeue,
mirroring the source's critical sections, so no step of any interleaving —
hence no observer holding the lock — sees a job in the queue without status
queued or vice versa. -/
theorem C4_queue_iff_queued (maxSize ttl : Nat) (folder : String) (w0 w : World)
    (h0 : InitWorld w0) (hr : Reachable maxSize ttl folder w0 w) (id : Nat) :
    id ∈ w.state.job_queue ↔ statusOf w.state id = some .queued :=
  (inv_reachable maxSize ttl folder w0 w h0 hr).queueStatus id

/-- Claim C4, witness: in the reachable configuration ex5 (job 0 running,
job 1 waiting), the equivalence is evaluated at id 1, where both sides hold. -/
theorem C4_witness :
    (1 ∈ ex5.state.job_queue ↔ statusOf ex5.state 1 = some .queued) ∧
      1 ∈ ex5.state.job_queue ∧ statusOf ex5.state 1 = some .queued :=
  ⟨C4_queue_iff_queued 1 600 resFolder ex0 ex5 ex0_init ex_reach05 1, by decide, by decide⟩

/-- Claim C5.  The history variable submitted lists the ids in the order
their enqueue critical sections ran; started lists them in the order the
worker dequeued them.  In every reachable configuration, submitted equals
started followed by the current queue: the worker has dequeued exactly the
oldest submissions, in submission order, and will take the remaining queue
in that same order — first submitted, first served. -/
theorem C5_fifo_order (maxSize ttl : Nat) (folder : String) (w0 w : World)
    (h0 : InitWorld w0) (hr : Reachable maxSize ttl folder w0 w) :
    w.submitted = w.started ++ w.state.job_queue :=
  (inv_reachable maxSize ttl folder w0 w h0 hr).fifo

/-- Claim C5, witness: after submitting jobs 0 then 1 and one dequeue, the
submission history [0, 1] is the processing history [0] followed by the
queue [1]. -/
theorem C5_witness : ex5.submitted = ex5.started ++ ex5.state.job_queue :=
  C5_fifo_order 1 600 resFolder ex0 ex5 ex0_init ex_reach05

/-- Order of the lifecycle: queued before processing before terminal. -/
def statusRank : Status → Nat
  | .queued => 0
  | .processing => 1
  | .completed => 2
  | .failed => 2

/-- The two absorbing statuses. -/
def isTerminal : Status → Bool
  | .completed => true
  | .failed => true
  | _ => false

/-- Claim C7.  Along any step out of a reachable configuration, a record
present before and after never regresses: its status rank never decreases
(queued to processing to completed/failed only), and a terminal status is
never changed by any operation.  Cleanup may remove a terminal record
entirely, which is record destruction, not a status change. -/
theorem C7_status_monotone (maxSize ttl : Nat) (folder : String) (w0 w w' : World)
    (h0 : InitWorld w0) (hr : Reachable maxSize ttl folder w0 w)
    (hs : Step maxSize ttl folder w w') (id : Nat) (r r' : JobRecord)
    (hf : findRecord w.state.job_results id = some r)
    (hf' : findRecord w'.state.job_results id = some r') :
    statusRank r.status ≤ statusRank r'.status ∧
      (isTerminal r.status = true → r'.status = r.status) := by
  have hI := inv_reachable maxSize ttl folder w0 w h0 hr
  cases hs with
  | checkPass i p ht hlen =>
      have heq : findRecord w.state.job_results id = some r' := hf'
      rw [hf] at heq
      cases heq
      exact ⟨le_refl _, fun _ => rfl⟩
  | checkReject i p ht hlen =>
      have heq : findRecord w.state.job_results id = some r' := hf'
      rw [hf] at heq
      cases heq
      exact ⟨le_refl _, fun _ => rfl⟩
  | enqueue i p idn now ht hid =>
      have hne : id ≠ idn := by
        intro he
        subst he
        exact hid (hI.storeUsed id (by simp [hf]))
      have heq : findRecord (submitEnqueue w.state idn p now).job_results id = some r' := hf'
      simp only [submitEnqueue] at heq
      rw [findRecord_cons_ne idn id _ _ (Ne.symm hne), hf] at heq
      cases heq
      exact ⟨le_refl _, fun _ => rfl⟩
  | dequeue idn rest now hw hq =>
      by_cases he : id = idn
      · subst he
        have heq : findRecord (updateRecord w.state.job_results id (markProcessing now)) id
            = some r' := hf'
        rw [findRecord_update_self, hf] at heq
        cases heq
        have hqd : r.status = .queued := by
          have := (hI.queueStatus id).mp (by rw [hq]; exact List.mem_cons_self _ _)
          simpa [statusOf, hf] using this
        constructor
        · rw [hqd]
          simp [markProcessing, statusRank]
        · intro hterm
          rw [hqd] at hterm
          simp [isTerminal] at hterm
      · have heq : findRecord (updateRecord w.state.job_results idn (markProcessing now)) id
            = some r' := hf'
        rw [findRecord_update_ne _ _ _ _ he, hf] at heq
        cases heq
        exact ⟨le_refl _, fun _ => rfl⟩
  | finishJob idn o now hw =>
      by_cases he : id = idn
      · subst he
        have hst : r.status = .processing := by
          have := hI.workerStatus id hw
          simpa [statusOf, hf] using this
        have heq : findRecord (updateRecord w.state.job_results id
            (fun r0 => applyOutcome now (resultPathFor folder id) o (popSeedValue r0))) id
            = some r' := hf'
        rw [findRecord_update_self, hf] at heq
        cases heq
        constructor
        · rw [hst]
          rcases applyOutcome_status now (resultPathFor folder id) o (popSeedValue r)
            with h2 | h2 <;> rw [h2] <;> simp [statusRank]
        · intro hterm
          rw [hst] at hterm
          simp [isTerminal] at hterm
      · have heq : findRecord (updateRecord w.state.job_results idn
            (fun r0 => applyOutcome now (resultPathFor folder idn) o (popSeedValue r0))) id
            = some r' := hf'
        rw [findRecord_update_ne _ _ _ _ he, hf] at heq
        cases heq
        exact ⟨le_refl _, fun _ => rfl⟩
  | releaseParams idn hw =>
      by_cases he : id = idn
      · subst he
        have heq : findRecord (updateRecord w.state.job_results id releaseParamsRec) id
            = some r' := hf'
        rw [findRecord_update_self, hf] at heq
        cases heq
        exact ⟨by rw [releaseParamsRec_status], fun _ => releaseParamsRec_status r⟩
      · have heq : findRecord (updateRecord w.state.job_results idn releaseParamsRec) id
            = some r' := hf'
        rw [findRecord_update_ne _ _ _ _ he, hf] at heq
        cases heq
        exact ⟨le_refl _, fun _ => rfl⟩
  | sweep now =>
      have heq := cleanupSweep_find_some ttl now w.state w.fs id r' hf'
      rw [hf] at heq
      cases heq
      exact ⟨le_refl _, fun _ => rfl⟩

/-- Claim C7, witness: the dequeue step from ex4 to ex5 takes job 0's record
from queued (rank 0) to processing (rank 1), no regression. -/
theorem C7_witness :
    statusRank (newRecord exParams 10).status ≤
        statusRank (markProcessing 12 (newRecord exParams 10)).status ∧
      (isTerminal (newRecord exParams 10).status = true →
        (markProcessing 12 (newRecord exParams 10)).status = (newRecord exParams 10).status) :=
  C7_status_monotone 1 600 resFolder ex0 ex4 ex5 ex0_init ex_reach04 ex_step45 0
    (newRecord exParams 10) (markProcessing 12 (newRecord exParams 10)) (by decide) (by decide)

/-- Claim C6.  get_result distinguishes the five cases, each on an arbitrary
record of the relevant shape: unknown id gives notFound (404); a completed
record whose artifact exists streams the file at result_path; a completed
record whose artifact is missing reports the internal-consistency fault
missingResult (500), a constructor distinct from failedError; a failed
record returns its recorded error (500); a queued or processing record
returns the retryable notReady signal (202), distinct from every failure
constructor. -/
theorem C6_get_result_cases :
    (∀ q fs id, get_result { job_queue := q, job_results := [] } fs id = .notFound) ∧
    (∀ q id pm t0 t1 ct e p files fl,
      get_result { job_queue := q, job_results := [(id, ⟨.completed, pm, t0, t1, ct, some p, e⟩)] }
        { files := p :: files, failing := fl } id = .fileResponse p) ∧
    (∀ q id pm t0 t1 ct e p fl,
      get_result { job_queue := q, job_results := [(id, ⟨.completed, pm, t0, t1, ct, some p, e⟩)] }
        { files := [], failing := fl } id = .missingResult) ∧
    (∀ q id pm t0 t1 ct rp msg fs,
      get_result { job_queue := q, job_results := [(id, ⟨.failed, pm, t0, t1, ct, rp, some msg⟩)] }
        fs id = .failedError msg) ∧
    (∀ q id pm t0 t1 ct rp e fs,
      get_result { job_queue := q, job_results := [(id, ⟨.queued, pm, t0, t1, ct, rp, e⟩)] }
        fs id = .notReady .queued) ∧
    (∀ q id pm t0 t1 ct rp e fs,
      get_result { job_queue := q, job_results := [(id, ⟨.processing, pm, t0, t1, ct, rp, e⟩)] }
        fs id = .notReady .processing) := by
  refine ⟨?_, ?_, ?_, ?_, ?_, ?_⟩
  · intro q fs id
    simp [get_result, findRecord]
  · intro q id pm t0 t1 ct e p files fl
    simp [get_result, findRecord, fsExists]
  · intro q id pm t0 t1 ct e p fl
    simp [get_result, findRecord, fsExists]
  · intro q id pm t0 t1 ct rp msg fs
    simp [get_result, findRecord]
  · intro q id pm t0 t1 ct rp e fs
    simp [get_result, findRecord]
  · intro q id pm t0 t1 ct rp e fs
    simp [get_result, findRecord]

/-- Claim C8.  The OutOfMemoryError handler records Failed with the
user-actionable message suggesting a smaller image size (literally a
substring of the stored message); the RuntimeError and generic Exception
handlers record Failed with their generic messages; every outcome of the
try block is handled (ComputeOutcome enumerates them and applyOutcome is
total), and from any configuration where the worker is computing a job,
whatever the outcome, two steps (the status write and the finally block)
return the worker to idle, ready for the next iteration — no job-level
error escapes the loop. -/
theorem C8_failure_classification (maxSize ttl : Nat) (folder : String) :
    (∀ now path r, (applyOutcome now path .oom r).status = .failed ∧
      (applyOutcome now path .oom r).error = some oomMessage) ∧
    (∃ pre post, oomMessage = pre ++ "smaller image size" ++ post) ∧
    (∀ now path d r, (applyOutcome now path (.runtimeFault d) r).status = .failed ∧
      (applyOutcome now path (.runtimeFault d) r).error = some runtimeMessage) ∧
    (∀ now path d r, (applyOutcome now path (.otherFault d) r).status = .failed ∧
      (applyOutcome now path (.otherFault d) r).error = some otherMessage) ∧
    (∀ (w : World) (id : Nat), w.worker = .running id → ∀ (o : ComputeOutcome) (now : Nat),
      ∃ w' w'', Step maxSize ttl folder w w' ∧ Step maxSize ttl folder w' w'' ∧
        w''.worker = .idle) := by
  refine ⟨fun now path r => ⟨rfl, rfl⟩,
    ⟨"Processing failed due to insufficient GPU memory. Try a ",
      " or reduce batch size.", by decide⟩,
    fun now path d r => ⟨rfl, rfl⟩,
    fun now path d r => ⟨rfl, rfl⟩,
    ?_⟩
  intro w id hw o now
  cases w with
  | mk threads worker state fs usedIds submitted started =>
      cases hw
      exact ⟨_, _, Step.finishJob _ id o now rfl, Step.releaseParams _ id rfl, rfl⟩

/-- Claim C8, witness: evaluated for the out-of-memory outcome on a concrete
processing record, and the loop-continuation conjunct instantiated at the
reachable configuration ex5 where the worker is computing job 0. -/
theorem C8_witness :
    ((applyOutcome 20 (resultPathFor resFolder 0) .oom procRecord).status = .failed ∧
      (applyOutcome 20 (resultPathFor resFolder 0) .oom procRecord).error
        = some oomMessage) ∧
    (∃ w' w'', Step 1 600 resFolder ex5 w' ∧ Step 1 600 resFolder w' w'' ∧
      w''.worker = .idle) :=
  ⟨(C8_failure_classification 1 600 resFolder).1 20 (resultPathFor resFolder 0) procRecord,
   (C8_failure_classification 1 600 resFolder).2.2.2.2 ex5 0 rfl .oom 21⟩

/-- Claim C9.  Whatever the compute outcome, after the post-compute status
write and the finally block the record's params dict no longer holds the
image or the generator: the two large payload objects are released.  The
record is built from arbitrary field values, so this covers every starting
record. -/
theorem C9_params_released (o : ComputeOutcome) (now : Nat) (path : String) (st : Status)
    (p : Params) (t0 : Nat) (t1 t2 : Option Nat) (rp e : Option String) :
    (releaseParamsRec (applyOutcome now path o
        (popSeedValue ⟨st, p, t0, t1, t2, rp, e⟩))).params.image = none ∧
    (releaseParamsRec (applyOutcome now path o
        (popSeedValue ⟨st, p, t0, t1, t2, rp, e⟩))).params.generator = none := by
  cases o <;> exact ⟨rfl, rfl⟩

/-- Claim C10.  A seed field that is a non-empty string of digits is parsed
with int() and used verbatim; an absent, empty or non-digit (including
negative) seed field falls back to the random draw, which torch.randint
bounds by 2 to the 32 minus 2 inclusive; in both cases the args record the
seed actually used under seed_value, equal to the generator's seed. -/
theorem C10_seed_selection (seed_str : Option String) (rand : Nat)
    (hr : rand < 2 ^ 32 - 1) :
    (∀ s, seed_str = some s → isDigitStr s = true →
      parseSeedArgs seed_str rand = { generator_seed := strToNat s, seed_value := strToNat s }) ∧
    (∀ s, seed_str = some s → isDigitStr s = false →
      parseSeedArgs seed_str rand = { generator_seed := rand, seed_value := rand }) ∧
    (seed_str = none →
      parseSeedArgs seed_str rand = { generator_seed := rand, seed_value := rand }) ∧
    rand ≤ 2 ^ 32 - 2 ∧
    (parseSeedArgs seed_str rand).seed_value = (parseSeedArgs seed_str rand).generator_seed := by
  refine ⟨?_, ?_, ?_, by omega, rfl⟩
  · intro s hs hd
    subst hs
    simp [parseSeedArgs, chooseSeed, hd]
  · intro s hs hd
    subst hs
    simp [parseSeedArgs, chooseSeed, hd]
  · intro hs
    subst hs
    simp [parseSeedArgs, chooseSeed]

/-- Claim C10, witness: seed "42" is used verbatim (and int("42") is 42),
seed "-5" is rejected by the digit test and the draw 7 is used instead, an
absent seed also uses the draw, and the draw bound holds. -/
theorem C10_witness :
    parseSeedArgs (some "42") 7 = { generator_seed := strToNat "42", seed_value := strToNat "42" } ∧
    strToNat "42" = 42 ∧
    parseSeedArgs (some "-5") 7 = { generator_seed := 7, seed_value := 7 } ∧
    parseSeedArgs none 7 = { generator_seed := 7, seed_value := 7 } ∧
    7 ≤ 2 ^ 32 - 2 :=
  ⟨(C10_seed_selection (some "42") 7 (by norm_num)).1 "42" rfl (by decide),
   by decide,
   (C10_seed_selection (some "-5") 7 (by norm_num)).2.1 "-5" rfl (by decide),
   (C10_seed_selection none 7 (by norm_num)).2.2.1 rfl,
   (C10_seed_selection none 7 (by norm_num)).2.2.2.1⟩

end KontextApp
